import Mathlib

/-!
Verification of the jupiter-swap-api-client request/response normalization
layer: a shallow embedding of the response classifier (lib.rs), the
string-encoded optional integer codec and the price schema (price.rs), and
the legacy price schema (price_v1.rs), with theorems about the client's
error-classification and serialization contract.
-/

namespace JupiterClient

/-- JSON values as handled by serde_json on the wire.  Numeric literals are
kept as their raw decimal token so that no floating-point arithmetic enters
the model; none of the verified properties depends on numeric-value
arithmetic of `f64` fields. -/
inductive Json where
  | null
  | bool (b : Bool)
  | num (lit : String)
  | str (s : String)
  | arr (elems : List Json)
  | obj (fields : List (String × Json))
deriving Repr

/-- Typed client error from `ClientError` in lib.rs: either the service
replied with a non-success status (carrying the status code and the raw body
text), or the response could not be deserialized (a reqwest error, modelled
by its message). -/
inductive ClientError where
  | requestFailed (status : Nat) (body : String)
  | deserializationError (msg : String)
deriving Repr, DecidableEq

/-- Raw HTTP response handed to the classifier: the received status code plus
the outcome of reading the body as text (reading the body can itself fail at
the transport level). -/
structure Response where
  status : Nat
  body : Except String String
deriving Repr

/-- Embeds `StatusCode::is_success` from the http crate: 200 ≤ code ≤ 299. -/
def isSuccessStatus (s : Nat) : Bool :=
  decide (200 ≤ s ∧ s ≤ 299)

/-- Embeds `response.text().await.unwrap_or_default()`: the body as text, with the
empty string substituted when reading the body fails. -/
def Response.textOrDefault (r : Response) : String :=
  match r.body with
  | .ok s => s
  | .error _ => ""

/-- Embeds `check_is_success` from lib.rs: a non-success status becomes
`RequestFailed` carrying the status and the best-effort body text; a success
status passes the response through untouched. -/
def check_is_success (r : Response) : Except ClientError Response :=
  if !isSuccessStatus r.status then
    .error (.requestFailed r.status r.textOrDefault)
  else
    .ok r

/-- Embeds `response.json::<T>()` from reqwest: read the body, then run the schema's
deserializer on it; failure of either step is a reqwest error. -/
def responseJson (decode : String → Except String α) (r : Response) : Except String α :=
  match r.body with
  | .error e => .error e
  | .ok s => decode s

/-- Embeds `check_status_code_and_deserialize` from lib.rs, parametric in the
expected success schema's decoder: first classify the status, then decode the
body, mapping a decode failure to `DeserializationError`. -/
def check_status_code_and_deserialize (decode : String → Except String α) (r : Response) :
    Except ClientError α :=
  match check_is_success r with
  | .error e => .error e
  | .ok r2 =>
    match responseJson decode r2 with
    | .error e => .error (.deserializationError e)
    | .ok v => .ok v

/-- Shared shape of the client operations in lib.rs: `send().await?` converts
a transport error raised before any response is received into `ClientError`
via the `#[from] reqwest::Error` conversion (the `DeserializationError`
variant), and a received response is classified. -/
def runClientOp (sendResult : Except String Response) (decode : String → Except String α) :
    Except ClientError α :=
  match sendResult with
  | .error e => .error (.deserializationError e)
  | .ok r => check_status_code_and_deserialize decode r

/-- Embeds `JupiterSwapApiClient::quote`, with the network exchange abstracted as its
outcome and the QuoteResponse decoder abstract (quote.rs is outside this
core). -/
def quoteOp (sendResult : Except String Response) (decodeQuoteResponse : String → Except String Q) :
    Except ClientError Q :=
  runClientOp sendResult decodeQuoteResponse

/-- Embeds `JupiterSwapApiClient::swap`, with the network exchange abstracted as its
outcome and the SwapResponse decoder abstract (swap.rs is outside this
core). -/
def swapOp (sendResult : Except String Response) (decodeSwapResponse : String → Except String S) :
    Except ClientError S :=
  runClientOp sendResult decodeSwapResponse

/-- Embeds `JupiterSwapApiClient::swap_instructions`: classify, decode the internal
wire shape, then map it into the public shape with `Into::into`. -/
def swapInstructionsOp (sendResult : Except String Response)
    (decodeInternal : String → Except String I) (intoPublic : I → P) :
    Except ClientError P :=
  (runClientOp sendResult decodeInternal).map intoPublic

/-- Embeds `JupiterSwapApiClient::get_prices`, with the network exchange abstracted
as its outcome and the PriceResponse decoder passed explicitly. -/
def getPricesOp (sendResult : Except String Response)
    (decodePriceResp : String → Except String R) : Except ClientError R :=
  runClientOp sendResult decodePriceResp

/-- Exactly one of the three classifier outcomes (success value, RequestFailed,
DeserializationError) holds for a classification result. -/
def exactlyOneOutcome (res : Except ClientError α) : Prop :=
  ((∃ v, res = .ok v) ∨ (∃ s b, res = .error (.requestFailed s b)) ∨
      (∃ e, res = .error (.deserializationError e))) ∧
    ¬((∃ v, res = .ok v) ∧ (∃ s b, res = .error (.requestFailed s b))) ∧
    ¬((∃ v, res = .ok v) ∧ (∃ e, res = .error (.deserializationError e))) ∧
    ¬((∃ s b, res = .error (.requestFailed s b)) ∧
        (∃ e, res = .error (.deserializationError e)))

/-- Decimal digit character for a digit 0–9, as emitted by `u64::to_string`. -/
def digitChar (d : Nat) : Char :=
  match d with
  | 0 => '0' | 1 => '1' | 2 => '2' | 3 => '3' | 4 => '4'
  | 5 => '5' | 6 => '6' | 7 => '7' | 8 => '8' | _ => '9'

/-- Digit-emission loop of `u64::to_string`, prepending the decimal digits of
`n` onto `rest` (most significant first).  The first argument is fuel bounding
the recursion depth; any fuel larger than `n` is sufficient since the value
shrinks by a factor of ten per step. -/
def toDecCharsAux : Nat → Nat → List Char → List Char
  | 0, _, rest => rest
  | fuel + 1, n, rest =>
    if n < 10 then digitChar n :: rest
    else toDecCharsAux fuel (n / 10) (digitChar (n % 10) :: rest)

/-- Embeds `u64::to_string` as a character list: the decimal digits of `n`. -/
def toDecChars (n : Nat) (rest : List Char) : List Char :=
  toDecCharsAux (n + 1) n rest

/-- Embeds `v.to_string()` for an unsigned integer: its decimal string form. -/
def toDecString (n : Nat) : String :=
  String.mk (toDecChars n [])

/-- Value accumulated by reading decimal digit characters left to right. -/
def natFold (acc : Nat) (cs : List Char) : Nat :=
  cs.foldl (fun a c => a * 10 + (c.toNat - 48)) acc

/-- Digit-consuming loop of `u64::from_str`: each ASCII digit multiplies the
accumulator by ten and adds the digit, failing on a non-digit character or as
soon as the checked arithmetic would leave the u64 range. -/
def parseU64Core (cs : List Char) (acc : Nat) : Option Nat :=
  match cs with
  | [] => some acc
  | c :: rest =>
    if c.isDigit then
      if acc * 10 + (c.toNat - 48) < 2 ^ 64 then
        parseU64Core rest (acc * 10 + (c.toNat - 48))
      else none
    else none

/-- Sign handling of `u64::from_str`: one leading '+' is accepted and
skipped (a '-' is not a digit and will fail in the digit loop). -/
def stripPlus (cs : List Char) : List Char :=
  match cs with
  | c :: rest => if c = '+' then rest else c :: rest
  | [] => []

/-- Embeds `s.parse::<u64>()`: optional leading '+', then a non-empty run of ASCII
digits, with values beyond 2^64 - 1 rejected by the checked arithmetic. -/
def parseU64 (s : String) : Option Nat :=
  match stripPlus s.data with
  | [] => none
  | c :: rest => parseU64Core (c :: rest) 0

/-- A valid u64 literal per `u64::from_str`: after the optional leading '+',
a non-empty run of ASCII digits whose value fits in 64 bits. -/
def validU64String (s : String) : Prop :=
  stripPlus s.data ≠ [] ∧ (∀ c ∈ stripPlus s.data, c.isDigit = true) ∧
    natFold 0 (stripPlus s.data) < 2 ^ 64

instance (s : String) : Decidable (validU64String s) := by
  unfold validU64String
  infer_instance

/-- Embeds `field_as_string_option::serialize` from price.rs: a present value is
serialized as its decimal string, an absent one via the serializer's none
marker (`serialize_none`). -/
def faso_serialize (value : Option Nat) : Json :=
  match value with
  | some v => .str (toDecString v)
  | none => .null

/-- Embeds `Option::<String>::deserialize` on a wire value: null is none, a string
is some, and any other value is a type error. -/
def deserializeOptionString (j : Json) : Except String (Option String) :=
  match j with
  | .null => .ok none
  | .str s => .ok (some s)
  | _ => .error "invalid type: expected an optional string"

/-- Embeds `field_as_string_option::deserialize` from price.rs: read an optional
string, then parse a present one as u64, with the codec's custom error when
parsing fails. -/
def faso_deserialize (j : Json) : Except String (Option Nat) :=
  match deserializeOptionString j with
  | .error e => .error e
  | .ok none => .ok none
  | .ok (some s) =>
    match parseU64 s with
    | some v => .ok (some v)
    | none => .error "Failed to parse u64"

/-- Deserialization of a struct field using the codec: a missing wire key
drives the codec with serde's missing-field deserializer, which `Option`
deserializes as none; a present wire value is handled by the codec
directly. -/
def faso_deserialize_field (wire : Option Json) : Except String (Option Nat) :=
  match wire with
  | none => .ok none
  | some j => faso_deserialize j

/-- Modelled from the spec: serde field emission for a wire field that pairs
the string-encoded optional integer codec with skip-if-absent omission.  The
structs that attach `field_as_string_option` to a wire field live in the
quote/swap schema modules, which are outside this core's source tree; per the
spec, a present value is emitted under the field's key as the codec's string
and an absent value causes the field to be omitted from the payload
entirely. -/
def emitStringCodecField (key : String) (value : Option Nat) : List (String × Json) :=
  match value with
  | some v => [(key, faso_serialize (some v))]
  | none => []

/-- Pubkey from solana_sdk, abstracted by its base58 display string — the
only aspect of it the client code consumes (`to_string`). -/
structure Pubkey where
  base58 : String
deriving DecidableEq, Repr

/-- Embeds `Pubkey::to_string` (base58 display form). -/
def Pubkey.toString (p : Pubkey) : String := p.base58

/-- Embeds `PriceRequest` from price.rs. -/
structure PriceRequest where
  ids : String
  vs_token : Option String
  show_extra_info : Option Bool
deriving DecidableEq, Repr

/-- Derived serde Serialize for `PriceRequest` rendered as query pairs, in
field declaration order, with `rename_all = "camelCase"` and
`skip_serializing_if = "Option::is_none"` on both optional fields; booleans
serialize as "true"/"false" on the query string. -/
def serializePriceRequest (r : PriceRequest) : List (String × String) :=
  [("ids", r.ids)]
    ++ (match r.vs_token with
        | some v => [("vsToken", v)]
        | none => [])
    ++ (match r.show_extra_info with
        | some b => [("showExtraInfo", if b then "true" else "false")]
        | none => [])

/-- Embeds `PriceRequest::new_single`. -/
def PriceRequest.new_single (token_mint : Pubkey) : PriceRequest :=
  { ids := token_mint.toString, vs_token := none, show_extra_info := none }

/-- Embeds `PriceRequest::new_multiple`: mints rendered to strings and joined with
commas. -/
def PriceRequest.new_multiple (token_mints : List Pubkey) : PriceRequest :=
  { ids := String.intercalate "," (token_mints.map Pubkey.toString),
    vs_token := none, show_extra_info := none }

/-- Embeds `PriceRequest::with_vs_token`. -/
def PriceRequest.with_vs_token (r : PriceRequest) (vs_token : Pubkey) : PriceRequest :=
  { r with vs_token := some vs_token.toString }

/-- Embeds `PriceRequest::with_extra_info`. -/
def PriceRequest.with_extra_info (r : PriceRequest) (show_extra_info : Bool) : PriceRequest :=
  { r with show_extra_info := some show_extra_info }

/-- Embeds `PriceV1Request` from price_v1.rs. -/
structure PriceV1Request where
  ids : String
  vs_token : Option String
deriving DecidableEq, Repr

/-- Embeds `PriceV1Request::new_single`. -/
def PriceV1Request.new_single (token_id : String) : PriceV1Request :=
  { ids := token_id, vs_token := none }

/-- Embeds `PriceV1Request::new_single_pubkey`. -/
def PriceV1Request.new_single_pubkey (token_mint : Pubkey) : PriceV1Request :=
  { ids := token_mint.toString, vs_token := none }

/-- Embeds `PriceV1Request::new_multiple`. -/
def PriceV1Request.new_multiple (token_ids : List String) : PriceV1Request :=
  { ids := String.intercalate "," token_ids, vs_token := none }

/-- Embeds `PriceV1Request::new_multiple_pubkeys`. -/
def PriceV1Request.new_multiple_pubkeys (token_mints : List Pubkey) : PriceV1Request :=
  { ids := String.intercalate "," (token_mints.map Pubkey.toString), vs_token := none }

/-- Embeds `PriceV1Request::with_vs_token`. -/
def PriceV1Request.with_vs_token (r : PriceV1Request) (vs_token : String) : PriceV1Request :=
  { r with vs_token := some vs_token }

/-- Embeds `PriceV1Request::with_vs_token_pubkey`. -/
def PriceV1Request.with_vs_token_pubkey (r : PriceV1Request) (vs_token : Pubkey) :
    PriceV1Request :=
  { r with vs_token := some vs_token.toString }

/-- Embeds `LastSwappedPrice` from price.rs.  The `Option<u64>` fields are plain
serde integers here, exactly as in the source (the string codec is defined in
the same file but not attached to these fields). -/
structure LastSwappedPrice where
  last_jupiter_sell_at : Option Nat
  last_jupiter_sell_price : Option String
  last_jupiter_buy_at : Option Nat
  last_jupiter_buy_price : Option String
deriving DecidableEq, Repr

/-- Embeds `QuotedPrice` from price.rs. -/
structure QuotedPrice where
  buy_price : Option String
  buy_at : Option Nat
  sell_price : Option String
  sell_at : Option Nat
deriving DecidableEq, Repr

/-- Embeds `PriceImpactRatio` from price.rs; the `HashMap<String, f64>` depth map is
modelled as an association list whose values keep the raw numeric token. -/
structure PriceImpactRatio where
  depth : List (String × String)
  timestamp : Nat
deriving DecidableEq, Repr

/-- Embeds `DepthInfo` from price.rs. -/
structure DepthInfo where
  buy_price_impact_ratio : Option PriceImpactRatio
  sell_price_impact_ratio : Option PriceImpactRatio
deriving DecidableEq, Repr

/-- Embeds `PriceExtraInfo` from price.rs. -/
structure PriceExtraInfo where
  last_swapped_price : Option LastSwappedPrice
  quoted_price : Option QuotedPrice
  confidence_level : Option String
  depth : Option DepthInfo
deriving DecidableEq, Repr

/-- Embeds `TokenPrice` from price.rs: the price is a string on the wire and stays a
string in the decoded structure. -/
structure TokenPrice where
  id : String
  type : String
  price : String
  extra_info : Option PriceExtraInfo
deriving DecidableEq, Repr

/-- Embeds `PriceResponse` from price.rs; the `HashMap<String, TokenPrice>` data map
is modelled as an association list keyed by mint address, and the `f64`
time_taken keeps the raw numeric token. -/
structure PriceResponse where
  data : List (String × TokenPrice)
  time_taken : String
deriving DecidableEq, Repr

/-- Embeds `PriceV1Error` from price_v1.rs (no rename_all attribute: wire keys are
the field names themselves). -/
structure PriceV1Error where
  error : String
  addresses : Option (List String)
deriving DecidableEq, Repr

/-- serde_json string decoding. -/
def decodeString (j : Json) : Except String String :=
  match j with
  | .str s => .ok s
  | _ => .error "invalid type: expected a string"

/-- serde_json u64 decoding: an unsigned integer numeric token in the u64
range (a fractional or signed token has a non-digit character and fails). -/
def decodeU64 (j : Json) : Except String Nat :=
  match j with
  | .num lit =>
    match (match lit.data with
           | [] => none
           | c :: rest => parseU64Core (c :: rest) 0) with
    | some v => .ok v
    | none => .error "invalid number: not a u64"
  | _ => .error "invalid type: expected u64"

/-- serde_json f64 decoding, modelled as capturing the raw numeric token: no
floating-point arithmetic enters the model and no verified property depends
on the numeric value of an f64 field. -/
def decodeF64 (j : Json) : Except String String :=
  match j with
  | .num lit => .ok lit
  | _ => .error "invalid type: expected f64"

/-- serde_json object decoding entry point. -/
def asObj (j : Json) : Except String (List (String × Json)) :=
  match j with
  | .obj fields => .ok fields
  | _ => .error "invalid type: expected an object"

/-- Required struct field under derived serde Deserialize: a missing wire key
is a decode error. -/
def reqField (fields : List (String × Json)) (key : String)
    (dec : Json → Except String α) : Except String α :=
  match fields.lookup key with
  | none => .error ("missing field " ++ key)
  | some j => dec j

/-- Optional struct field under derived serde Deserialize: a missing wire key
or an explicit null produces none; a present value is decoded. -/
def optField (fields : List (String × Json)) (key : String)
    (dec : Json → Except String α) : Except String (Option α) :=
  match fields.lookup key with
  | none => .ok none
  | some .null => .ok none
  | some j => (dec j).map some

/-- Derived Deserialize for `LastSwappedPrice` (camelCase wire keys). -/
def decodeLastSwappedPrice (j : Json) : Except String LastSwappedPrice := do
  let fields ← asObj j
  let lsa ← optField fields "lastJupiterSellAt" decodeU64
  let lsp ← optField fields "lastJupiterSellPrice" decodeString
  let lba ← optField fields "lastJupiterBuyAt" decodeU64
  let lbp ← optField fields "lastJupiterBuyPrice" decodeString
  return { last_jupiter_sell_at := lsa, last_jupiter_sell_price := lsp,
           last_jupiter_buy_at := lba, last_jupiter_buy_price := lbp }

/-- Derived Deserialize for `QuotedPrice` (camelCase wire keys). -/
def decodeQuotedPrice (j : Json) : Except String QuotedPrice := do
  let fields ← asObj j
  let bp ← optField fields "buyPrice" decodeString
  let ba ← optField fields "buyAt" decodeU64
  let sp ← optField fields "sellPrice" decodeString
  let sa ← optField fields "sellAt" decodeU64
  return { buy_price := bp, buy_at := ba, sell_price := sp, sell_at := sa }

/-- serde_json decoding of a `HashMap<String, f64>`. -/
def decodeStringF64Map (j : Json) : Except String (List (String × String)) := do
  let fields ← asObj j
  fields.mapM (fun kv => do
    let v ← decodeF64 kv.2
    return (kv.1, v))

/-- Derived Deserialize for `PriceImpactRatio` (camelCase wire keys). -/
def decodePriceImpactRatio (j : Json) : Except String PriceImpactRatio := do
  let fields ← asObj j
  let d ← reqField fields "depth" decodeStringF64Map
  let ts ← reqField fields "timestamp" decodeU64
  return { depth := d, timestamp := ts }

/-- Derived Deserialize for `DepthInfo` (camelCase wire keys). -/
def decodeDepthInfo (j : Json) : Except String DepthInfo := do
  let fields ← asObj j
  let b ← optField fields "buyPriceImpactRatio" decodePriceImpactRatio
  let s ← optField fields "sellPriceImpactRatio" decodePriceImpactRatio
  return { buy_price_impact_ratio := b, sell_price_impact_ratio := s }

/-- Derived Deserialize for `PriceExtraInfo` (camelCase wire keys). -/
def decodePriceExtraInfo (j : Json) : Except String PriceExtraInfo := do
  let fields ← asObj j
  let lsp ← optField fields "lastSwappedPrice" decodeLastSwappedPrice
  let qp ← optField fields "quotedPrice" decodeQuotedPrice
  let cl ← optField fields "confidenceLevel" decodeString
  let d ← optField fields "depth" decodeDepthInfo
  return { last_swapped_price := lsp, quoted_price := qp,
           confidence_level := cl, depth := d }

/-- Derived Deserialize for `TokenPrice` (camelCase wire keys): id, type and
price are required, extraInfo is optional. -/
def decodeTokenPrice (j : Json) : Except String TokenPrice := do
  let fields ← asObj j
  let i ← reqField fields "id" decodeString
  let t ← reqField fields "type" decodeString
  let p ← reqField fields "price" decodeString
  let ei ← optField fields "extraInfo" decodePriceExtraInfo
  return { id := i, type := t, price := p, extra_info := ei }

/-- serde_json decoding of the `HashMap<String, TokenPrice>` data map. -/
def decodeTokenPriceMap (j : Json) : Except String (List (String × TokenPrice)) := do
  let fields ← asObj j
  fields.mapM (fun kv => do
    let v ← decodeTokenPrice kv.2
    return (kv.1, v))

/-- Derived Deserialize for `PriceResponse` (camelCase wire keys): both data
and timeTaken are required. -/
def decodePriceResponse (j : Json) : Except String PriceResponse := do
  let fields ← asObj j
  let d ← reqField fields "data" decodeTokenPriceMap
  let tt ← reqField fields "timeTaken" decodeF64
  return { data := d, time_taken := tt }

/-- serde_json decoding of a list of strings. -/
def decodeStringList (j : Json) : Except String (List String) :=
  match j with
  | .arr elems => elems.mapM decodeString
  | _ => .error "invalid type: expected an array"

/-- Derived Deserialize for `PriceV1Error`: error is required, addresses is
optional. -/
def decodePriceV1Error (j : Json) : Except String PriceV1Error := do
  let fields ← asObj j
  let e ← reqField fields "error" decodeString
  let addrs ← optField fields "addresses" decodeStringList
  return { error := e, addresses := addrs }

/-- The spec's example price response body, as wire JSON. -/
def priceResponseExample : Json :=
  .obj [("data", .obj [("MINT1",
          .obj [("id", .str "MINT1"), ("type", .str "derivedPrice"),
                ("price", .str "1.23")])]),
        ("timeTaken", .num "0.01")]

/-- Embeds `RequestBuilder::query` from reqwest: each call serializes its argument
and appends the resulting pairs to the request URL's query string; it never
removes or overwrites pairs that are already attached. -/
def applyQuery (urlQuery newPairs : List (String × String)) : List (String × String) :=
  urlQuery ++ newPairs

/-- Query pairs attached by `JupiterSwapApiClient::quote`:
`.query(&internal_quote_request).query(&extra_args)` — the structured
InternalQuoteRequest fields first, then the open extra-argument bag.  Both
sources enter as already-serialized pair lists (the InternalQuoteRequest
field serialization itself lives in quote.rs, outside this core). -/
def quoteQueryPairs (structured extraArgs : List (String × String)) :
    List (String × String) :=
  applyQuery (applyQuery [] structured) extraArgs

/-- Effective value of a key in a query-pair list under the convention that a
later binding for the same key takes precedence over an earlier one. -/
def lastValue (pairs : List (String × String)) (k : String) : Option String :=
  (pairs.filter (fun p => p.1 == k)).getLast?.map Prod.snd

theorem exactlyOneOutcome_holds (res : Except ClientError α) : exactlyOneOutcome res := by
  unfold exactlyOneOutcome
  match res with
  | .ok v =>
    refine ⟨.inl ⟨v, rfl⟩, ?_, ?_, ?_⟩
    · rintro ⟨-, s, b, hsb⟩
      exact Except.noConfusion hsb
    · rintro ⟨-, e, he⟩
      exact Except.noConfusion he
    · rintro ⟨⟨s, b, hsb⟩, -⟩
      exact Except.noConfusion hsb
  | .error (.requestFailed s b) =>
    refine ⟨.inr (.inl ⟨s, b, rfl⟩), ?_, ?_, ?_⟩
    · rintro ⟨⟨v, hv⟩, -⟩
      exact Except.noConfusion hv
    · rintro ⟨⟨v, hv⟩, -⟩
      exact Except.noConfusion hv
    · rintro ⟨-, e, he⟩
      exact ClientError.noConfusion (Except.error.inj he)
  | .error (.deserializationError e) =>
    refine ⟨.inr (.inr ⟨e, rfl⟩), ?_, ?_, ?_⟩
    · rintro ⟨⟨v, hv⟩, -⟩
      exact Except.noConfusion hv
    · rintro ⟨⟨v, hv⟩, -⟩
      exact Except.noConfusion hv
    · rintro ⟨⟨s2, b2, hsb⟩, -⟩
      exact ClientError.noConfusion (Except.error.inj hsb)

/-- Equation lemma: the classifier on a non-success status. -/
theorem csd_not_success (decode : String → Except String α) (r : Response)
    (h : isSuccessStatus r.status = false) :
    check_status_code_and_deserialize decode r =
      .error (.requestFailed r.status r.textOrDefault) := by
  unfold check_status_code_and_deserialize check_is_success
  rw [h]
  rfl

/-- Equation lemma: the classifier on a success status decodes the body. -/
theorem csd_success (decode : String → Except String α) (r : Response)
    (h : isSuccessStatus r.status = true) :
    check_status_code_and_deserialize decode r =
      match responseJson decode r with
      | .error e => .error (.deserializationError e)
      | .ok v => .ok v := by
  unfold check_status_code_and_deserialize check_is_success
  rw [h]
  rfl

/-- A `RequestFailed` classification pins down the response it came from: a
non-success status, with the error carrying that status and body text. -/
theorem requestFailed_only_from_response (dec : String → Except String α)
    (r : Response) (s : Nat) (b : String)
    (h : check_status_code_and_deserialize dec r = .error (.requestFailed s b)) :
    isSuccessStatus r.status = false ∧ s = r.status ∧ b = r.textOrDefault := by
  by_cases hst : isSuccessStatus r.status
  · rw [csd_success dec r hst] at h
    exfalso
    cases hj : responseJson dec r <;> rw [hj] at h
    · exact ClientError.noConfusion (Except.error.inj h)
    · exact Except.noConfusion h
  · rw [Bool.not_eq_true] at hst
    rw [csd_not_success dec r hst] at h
    injection Except.error.inj h with h3 h4
    exact ⟨hst, h3.symm, h4.symm⟩

/-- C1: a raw response whose status code is outside the success range
classifies as `RequestFailed` carrying that status and the body consumed as
text (with the empty string substituted when the body cannot be read), for
every decoder of the typed success schema — the body is never decoded as the
success schema on this path, even by a decoder that would succeed on it. -/
theorem non_success_always_request_failed (r : Response)
    (decode : String → Except String α)
    (h : isSuccessStatus r.status = false) :
    check_status_code_and_deserialize decode r =
      .error (.requestFailed r.status r.textOrDefault) ∧
      (∀ e, r.body = .error e → r.textOrDefault = "") := by
  constructor
  · unfold check_status_code_and_deserialize check_is_success
    rw [h]
    rfl
  · intro e he
    unfold Response.textOrDefault
    rw [he]

/-- Witness for C1, at the spec's own scenario: a 500 response with body
"internal error" classifies as RequestFailed even under a decoder that
accepts every body. -/
theorem non_success_always_request_failed_witness :
    isSuccessStatus 500 = false ∧
      check_status_code_and_deserialize (fun _ => Except.ok (42 : Nat))
          { status := 500, body := Except.ok "internal error" } =
        Except.error (ClientError.requestFailed 500 "internal error") :=
  ⟨by decide,
    (non_success_always_request_failed
      { status := 500, body := Except.ok "internal error" }
      (fun _ => Except.ok (42 : Nat)) (by decide)).1⟩

/-- C2: with a success status the body is decoded as the expected schema; any
decode failure yields `DeserializationError` carrying the underlying failure,
a successful decode yields the typed value (never a partially-populated one),
and the three outcomes are mutually exclusive and exhaustive. -/
theorem success_status_decode_classification (r : Response)
    (decode : String → Except String α) :
    (isSuccessStatus r.status = true →
      (∀ e, responseJson decode r = .error e →
        check_status_code_and_deserialize decode r = .error (.deserializationError e)) ∧
      (∀ v, responseJson decode r = .ok v →
        check_status_code_and_deserialize decode r = .ok v)) ∧
      exactlyOneOutcome (check_status_code_and_deserialize decode r) := by
  refine ⟨fun hs => ⟨?_, ?_⟩, exactlyOneOutcome_holds _⟩
  · intro e he
    unfold check_status_code_and_deserialize check_is_success
    rw [hs]
    simp only [Bool.not_true, Bool.false_eq_true, if_false, he]
  · intro v hv
    unfold check_status_code_and_deserialize check_is_success
    rw [hs]
    simp only [Bool.not_true, Bool.false_eq_true, if_false, hv]

/-- Witness for C2: a 200 response whose body fails to decode classifies as
DeserializationError carrying the decoder's failure. -/
theorem success_status_decode_classification_witness :
    isSuccessStatus 200 = true ∧
      responseJson (fun _ => (Except.error "missing field" : Except String Nat))
          { status := 200, body := Except.ok "{}" } = Except.error "missing field" ∧
      check_status_code_and_deserialize
          (fun _ => (Except.error "missing field" : Except String Nat))
          { status := 200, body := Except.ok "{}" } =
        Except.error (ClientError.deserializationError "missing field") :=
  ⟨by decide, rfl,
    ((success_status_decode_classification
        { status := 200, body := Except.ok "{}" }
        (fun _ => (Except.error "missing field" : Except String Nat))).1
      (by decide)).1 "missing field" rfl⟩

/-- C10: for each client operation (quote, swap, swap_instructions,
get_prices), a transport error raised before any HTTP status is received
surfaces as the DeserializationError variant, never RequestFailed; and a
RequestFailed result only ever arises from a received response whose status is
outside the success range, carrying that status and body text. -/
theorem transport_error_surfaces_as_deserialization_error
    (sendResult : Except String Response)
    (decQ : String → Except String Q) (decS : String → Except String S)
    (decI : String → Except String I) (into : I → P)
    (decR : String → Except String R) :
    (∀ e, sendResult = .error e →
      quoteOp sendResult decQ = .error (.deserializationError e) ∧
        swapOp sendResult decS = .error (.deserializationError e) ∧
        swapInstructionsOp sendResult decI into = .error (.deserializationError e) ∧
        getPricesOp sendResult decR = .error (.deserializationError e)) ∧
      (∀ s b,
        (quoteOp sendResult decQ = .error (.requestFailed s b) ∨
          swapOp sendResult decS = .error (.requestFailed s b) ∨
          swapInstructionsOp sendResult decI into = .error (.requestFailed s b) ∨
          getPricesOp sendResult decR = .error (.requestFailed s b)) →
        ∃ r, sendResult = .ok r ∧ isSuccessStatus r.status = false ∧
          s = r.status ∧ b = r.textOrDefault) := by
  constructor
  · rintro e rfl
    exact ⟨rfl, rfl, rfl, rfl⟩
  · intro s b hfail
    match hsend : sendResult with
    | .error e =>
      exfalso
      rcases hfail with h | h | h | h <;> cases h
    | .ok r =>
      refine ⟨r, rfl, ?_⟩
      rcases hfail with h | h | h | h
      · exact requestFailed_only_from_response decQ r s b h
      · exact requestFailed_only_from_response decS r s b h
      · have h2 : Except.map into (check_status_code_and_deserialize decI r) =
            Except.error (ClientError.requestFailed s b) := h
        cases hc : check_status_code_and_deserialize decI r <;> rw [hc] at h2
        · have h3 := Except.error.inj h2
          subst h3
          exact requestFailed_only_from_response decI r s b hc
        · exact Except.noConfusion h2
      · exact requestFailed_only_from_response decR r s b h

/-- Witness for C10: a connection failure while sending surfaces as
DeserializationError on every operation. -/
theorem transport_error_surfaces_witness :
    quoteOp (Except.error "connection refused") (fun _ => Except.ok (0 : Nat)) =
        Except.error (ClientError.deserializationError "connection refused") ∧
      swapOp (Except.error "connection refused") (fun _ => Except.ok (0 : Nat)) =
        Except.error (ClientError.deserializationError "connection refused") :=
  have h := (transport_error_surfaces_as_deserialization_error
      (Except.error "connection refused")
      (fun _ => Except.ok (0 : Nat)) (fun _ => Except.ok (0 : Nat))
      (fun _ => Except.ok (0 : Nat)) (fun n => n)
      (fun _ => Except.ok (0 : Nat))).1 "connection refused" rfl
  ⟨h.1, h.2.1⟩

theorem digitChar_isDigit (d : Nat) (h : d < 10) : (digitChar d).isDigit = true := by
  interval_cases d <;> decide

theorem digitChar_toNat_sub (d : Nat) (h : d < 10) : (digitChar d).toNat - 48 = d := by
  interval_cases d <;> decide

theorem digitChar_ne_plus (d : Nat) : ¬ digitChar d = '+' := by
  unfold digitChar
  split <;> decide

theorem natFold_cons (acc : Nat) (c : Char) (cs : List Char) :
    natFold acc (c :: cs) = natFold (acc * 10 + (c.toNat - 48)) cs := rfl

theorem le_natFold (acc : Nat) (cs : List Char) : acc ≤ natFold acc cs := by
  induction cs generalizing acc with
  | nil => exact Nat.le_refl acc
  | cons c rest ih =>
    rw [natFold_cons]
    exact le_trans (by omega) (ih (acc * 10 + (c.toNat - 48)))

theorem natFold_toDecCharsAux (fuel : Nat) : ∀ n rest acc, n < fuel →
    ∃ p : Nat, natFold acc (toDecCharsAux fuel n rest) = natFold (acc * p + n) rest := by
  induction fuel with
  | zero => intro n _ _ h; omega
  | succ fuel ih =>
    intro n rest acc h
    unfold toDecCharsAux
    by_cases h10 : n < 10
    · rw [if_pos h10]
      refine ⟨10, ?_⟩
      rw [natFold_cons, digitChar_toNat_sub n h10]
    · rw [if_neg h10]
      have hrec : n / 10 < fuel := by
        have := Nat.div_lt_self (by omega : 0 < n) (by omega : 1 < 10)
        omega
      obtain ⟨p, hp⟩ := ih (n / 10) (digitChar (n % 10) :: rest) acc hrec
      refine ⟨p * 10, ?_⟩
      rw [hp, natFold_cons, digitChar_toNat_sub (n % 10) (Nat.mod_lt n (by omega))]
      have : (acc * p + n / 10) * 10 + n % 10 = acc * (p * 10) + n := by
        have := Nat.div_add_mod n 10
        ring_nf
        omega
      rw [this]

theorem toDecCharsAux_digits (fuel : Nat) : ∀ n rest, n < fuel →
    (∀ c ∈ rest, c.isDigit = true) →
    ∀ c ∈ toDecCharsAux fuel n rest, c.isDigit = true := by
  induction fuel with
  | zero => intro n _ h; omega
  | succ fuel ih =>
    intro n rest h hrest
    unfold toDecCharsAux
    by_cases h10 : n < 10
    · rw [if_pos h10]
      intro c hc
      rcases List.mem_cons.mp hc with rfl | hmem
      · exact digitChar_isDigit n h10
      · exact hrest c hmem
    · rw [if_neg h10]
      have hrec : n / 10 < fuel := by
        have := Nat.div_lt_self (by omega : 0 < n) (by omega : 1 < 10)
        omega
      refine ih (n / 10) (digitChar (n % 10) :: rest) hrec ?_
      intro c hc
      rcases List.mem_cons.mp hc with rfl | hmem
      · exact digitChar_isDigit (n % 10) (Nat.mod_lt n (by omega))
      · exact hrest c hmem

theorem toDecCharsAux_head (fuel : Nat) : ∀ n rest, n < fuel →
    ∃ d tail, d < 10 ∧ toDecCharsAux fuel n rest = digitChar d :: tail := by
  induction fuel with
  | zero => intro n _ h; omega
  | succ fuel ih =>
    intro n rest h
    unfold toDecCharsAux
    by_cases h10 : n < 10
    · rw [if_pos h10]
      exact ⟨n, rest, h10, rfl⟩
    · rw [if_neg h10]
      have hrec : n / 10 < fuel := by
        have := Nat.div_lt_self (by omega : 0 < n) (by omega : 1 < 10)
        omega
      exact ih (n / 10) (digitChar (n % 10) :: rest) hrec

theorem parseU64Core_digits (cs : List Char) : ∀ acc : Nat,
    (∀ c ∈ cs, c.isDigit = true) → natFold acc cs < 2 ^ 64 →
    parseU64Core cs acc = some (natFold acc cs) := by
  induction cs with
  | nil => intro acc _ _; rfl
  | cons c rest ih =>
    intro acc hdig hlt
    rw [natFold_cons] at hlt
    unfold parseU64Core
    rw [if_pos (hdig c (List.mem_cons_self c rest))]
    have hle := le_natFold (acc * 10 + (c.toNat - 48)) rest
    rw [if_pos (by omega)]
    rw [ih (acc * 10 + (c.toNat - 48)) (fun c2 h2 => hdig c2 (List.mem_cons_of_mem c h2)) hlt]
    rw [natFold_cons]

theorem parseU64Core_nondigit (cs : List Char) : ∀ acc : Nat,
    (∃ c ∈ cs, ¬ c.isDigit = true) → parseU64Core cs acc = none := by
  induction cs with
  | nil =>
    rintro acc ⟨c, hc, -⟩
    cases hc
  | cons c rest ih =>
    rintro acc ⟨c2, hc2, hnd⟩
    unfold parseU64Core
    by_cases hd : c.isDigit
    · rw [if_pos hd]
      by_cases hov : acc * 10 + (c.toNat - 48) < 2 ^ 64
      · rw [if_pos hov]
        apply ih
        rcases List.mem_cons.mp hc2 with rfl | hmem
        · exact absurd hd hnd
        · exact ⟨c2, hmem, hnd⟩
      · rw [if_neg hov]
    · rw [if_neg hd]

theorem parseU64Core_overflow (cs : List Char) : ∀ acc : Nat, acc < 2 ^ 64 →
    (∀ c ∈ cs, c.isDigit = true) → 2 ^ 64 ≤ natFold acc cs →
    parseU64Core cs acc = none := by
  induction cs with
  | nil =>
    intro acc hacc _ hge
    exact absurd hge (by unfold natFold; simp; omega)
  | cons c rest ih =>
    intro acc hacc hdig hge
    rw [natFold_cons] at hge
    unfold parseU64Core
    rw [if_pos (hdig c (List.mem_cons_self c rest))]
    by_cases hov : acc * 10 + (c.toNat - 48) < 2 ^ 64
    · rw [if_pos hov]
      exact ih _ hov (fun c2 h2 => hdig c2 (List.mem_cons_of_mem c h2)) hge
    · rw [if_neg hov]

theorem parseU64_eq_core (s : String) (c : Char) (cs : List Char)
    (hsp : stripPlus s.data = c :: cs) : parseU64 s = parseU64Core (c :: cs) 0 := by
  unfold parseU64
  rw [hsp]

theorem parseU64_toDecString (v : Nat) (h : v < 2 ^ 64) :
    parseU64 (toDecString v) = some v := by
  obtain ⟨d, tail, hd, heq⟩ := toDecCharsAux_head (v + 1) v [] (Nat.lt_succ_self v)
  have hdigits : ∀ c ∈ toDecCharsAux (v + 1) v [], c.isDigit = true :=
    toDecCharsAux_digits (v + 1) v [] (Nat.lt_succ_self v) (by intro c hc; cases hc)
  have hval : natFold 0 (toDecCharsAux (v + 1) v []) = v := by
    obtain ⟨p, hp⟩ := natFold_toDecCharsAux (v + 1) v [] 0 (Nat.lt_succ_self v)
    rw [hp]
    unfold natFold
    simp
  have hcore : parseU64Core (toDecCharsAux (v + 1) v []) 0 = some v := by
    rw [parseU64Core_digits _ 0 hdigits (by rw [hval]; exact h), hval]
  have hstrip : stripPlus (toDecString v).data = digitChar d :: tail := by
    show stripPlus (toDecCharsAux (v + 1) v []) = digitChar d :: tail
    rw [heq]
    show (if digitChar d = '+' then tail else digitChar d :: tail) = digitChar d :: tail
    rw [if_neg (digitChar_ne_plus d)]
  rw [parseU64_eq_core (toDecString v) (digitChar d) tail hstrip, ← heq, hcore]

theorem faso_deserialize_str (s : String) :
    faso_deserialize (.str s) =
      match parseU64 s with
      | some v => .ok (some v)
      | none => .error "Failed to parse u64" := rfl

theorem parseU64_eq_none_of_not_valid (s : String) (h : ¬ validU64String s) :
    parseU64 s = none := by
  unfold validU64String at h
  unfold parseU64
  cases hsp : stripPlus s.data with
  | nil => rfl
  | cons c rest =>
    rw [hsp] at h
    by_cases h2 : ∀ x ∈ c :: rest, Char.isDigit x = true
    · have h3 : 2 ^ 64 ≤ natFold 0 (c :: rest) := by
        by_contra h4
        exact h ⟨List.cons_ne_nil c rest, h2, by omega⟩
      exact parseU64Core_overflow (c :: rest) 0 (by positivity) h2 h3
    · push_neg at h2
      obtain ⟨x, hx, hnd⟩ := h2
      exact parseU64Core_nondigit (c :: rest) 0 ⟨x, hx, by simp [hnd]⟩

/-- C3: serializing `Some v` through the string-encoded optional integer
codec and deserializing the result yields exactly `Some v`, for every value
in the u64 range; serializing `None` and deserializing yields exactly
`None`. -/
theorem faso_round_trip (v : Nat) (h : v < 2 ^ 64) :
    faso_deserialize (faso_serialize (some v)) = .ok (some v) ∧
      faso_deserialize (faso_serialize none) = .ok none := by
  refine ⟨?_, rfl⟩
  show faso_deserialize (.str (toDecString v)) = .ok (some v)
  rw [faso_deserialize_str, parseU64_toDecString v h]

/-- Witness for C3 at an epoch-second-sized value. -/
theorem faso_round_trip_witness :
    1700000000 < 2 ^ 64 ∧
      faso_deserialize (faso_serialize (some 1700000000)) = .ok (some 1700000000) :=
  ⟨by norm_num, (faso_round_trip 1700000000 (by norm_num)).1⟩

/-- C4: through the string-encoded optional integer codec, a present value is
serialized under its key as its decimal string form (the string parses back
to the value), and an absent value is omitted from the outbound payload
entirely — in particular it is never emitted as an explicit null. -/
theorem string_codec_field_emission (key : String) (v : Nat) (h : v < 2 ^ 64) :
    emitStringCodecField key (some v) = [(key, Json.str (toDecString v))] ∧
      parseU64 (toDecString v) = some v ∧
      emitStringCodecField key none = [] ∧
      (key, Json.null) ∉ emitStringCodecField key none := by
  refine ⟨rfl, parseU64_toDecString v h, rfl, ?_⟩
  intro hmem
  cases hmem

/-- Witness for C4. -/
theorem string_codec_field_emission_witness :
    1700000000 < 2 ^ 64 ∧
      emitStringCodecField "lastJupiterSellAt" (some 1700000000) =
        [("lastJupiterSellAt", Json.str (toDecString 1700000000))] ∧
      emitStringCodecField "lastJupiterSellAt" none = [] :=
  have h := string_codec_field_emission "lastJupiterSellAt" 1700000000 (by norm_num)
  ⟨by norm_num, h.1, h.2.2.1⟩

/-- C5: deserializing through the string-encoded optional integer codec fails
with the codec's deserialization error whenever the wire value is a present
string that is not a valid u64 literal, and succeeds with `None` when the
wire value is absent or null. -/
theorem faso_deserialize_fails_on_invalid (s : String) (h : ¬ validU64String s) :
    faso_deserialize_field (some (.str s)) = .error "Failed to parse u64" ∧
      faso_deserialize_field none = .ok none ∧
      faso_deserialize_field (some .null) = .ok none := by
  refine ⟨?_, rfl, rfl⟩
  show faso_deserialize (.str s) = .error "Failed to parse u64"
  rw [faso_deserialize_str, parseU64_eq_none_of_not_valid s h]

/-- Witness for C5 at the spec's example of a non-numeric string. -/
theorem faso_deserialize_fails_on_invalid_witness :
    ¬ validU64String "abc" ∧
      faso_deserialize_field (some (.str "abc")) = .error "Failed to parse u64" :=
  ⟨by decide, (faso_deserialize_fails_on_invalid "abc" (by decide)).1⟩

theorem except_bind_ok (a : α) (f : α → Except ε β) :
    (Except.ok a >>= f) = f a := rfl

/-- C6: a PriceRequest for ids "MINT1,MINT2" with both optional fields unset
serializes to exactly the ids pair, with no vsToken or showExtraInfo key at
all; and the spec's example response JSON decodes to a PriceResponse whose
data entry for "MINT1" has price equal to the string "1.23". -/
theorem price_request_serialization_scenario :
    serializePriceRequest { ids := "MINT1,MINT2", vs_token := none, show_extra_info := none } =
        [("ids", "MINT1,MINT2")] ∧
      "vsToken" ∉ (serializePriceRequest
          { ids := "MINT1,MINT2", vs_token := none, show_extra_info := none }).map Prod.fst ∧
      "showExtraInfo" ∉ (serializePriceRequest
          { ids := "MINT1,MINT2", vs_token := none, show_extra_info := none }).map Prod.fst ∧
      decodePriceResponse priceResponseExample =
        .ok { data := [("MINT1", { id := "MINT1", type := "derivedPrice",
                                   price := "1.23", extra_info := none })],
              time_taken := "0.01" } ∧
      (decodePriceResponse priceResponseExample).map
          (fun resp => (resp.data.lookup "MINT1").map TokenPrice.price) =
        .ok (some "1.23") :=
  ⟨rfl, by decide, by decide, rfl, rfl⟩

/-- C7: every optional field of the response types in the price modules
deserializes to none when its wire key is missing: in general for
PriceExtraInfo (any object missing all four of its keys decodes with every
field none), and concretely for a TokenPrice without an extraInfo key and for
the remaining optional-field response types. -/
theorem optional_fields_missing_decode_none (fields : List (String × Json))
    (h1 : fields.lookup "lastSwappedPrice" = none)
    (h2 : fields.lookup "quotedPrice" = none)
    (h3 : fields.lookup "confidenceLevel" = none)
    (h4 : fields.lookup "depth" = none) :
    decodePriceExtraInfo (.obj fields) =
        .ok { last_swapped_price := none, quoted_price := none,
              confidence_level := none, depth := none } ∧
      decodeTokenPrice (.obj [("id", .str "M"), ("type", .str "derivedPrice"),
          ("price", .str "1.0")]) =
        .ok { id := "M", type := "derivedPrice", price := "1.0", extra_info := none } ∧
      decodeLastSwappedPrice (.obj []) =
        .ok { last_jupiter_sell_at := none, last_jupiter_sell_price := none,
              last_jupiter_buy_at := none, last_jupiter_buy_price := none } ∧
      decodeQuotedPrice (.obj []) =
        .ok { buy_price := none, buy_at := none, sell_price := none, sell_at := none } ∧
      decodeDepthInfo (.obj []) =
        .ok { buy_price_impact_ratio := none, sell_price_impact_ratio := none } ∧
      decodePriceV1Error (.obj [("error", .str "bad request")]) =
        .ok { error := "bad request", addresses := none } := by
  refine ⟨?_, rfl, rfl, rfl, rfl, rfl⟩
  simp only [decodePriceExtraInfo, asObj, optField, h1, h2, h3, h4, except_bind_ok]
  rfl

/-- Witness for C7, instantiated at the empty object. -/
theorem optional_fields_missing_decode_none_witness :
    decodePriceExtraInfo (.obj []) =
      .ok { last_swapped_price := none, quoted_price := none,
            confidence_level := none, depth := none } :=
  (optional_fields_missing_decode_none [] rfl rfl rfl rfl).1

/-- C8: each PriceRequest builder method sets exactly one optional field and
leaves every other field unchanged, and the constructors leave every optional
field absent; likewise for the legacy PriceV1Request builders. -/
theorem builders_set_one_field (r : PriceRequest) (p : Pubkey) (b : Bool)
    (mint : Pubkey) (mints : List Pubkey) (r1 : PriceV1Request)
    (tok : String) (toks : List String) :
    (r.with_vs_token p).vs_token = some p.toString ∧
      (r.with_vs_token p).ids = r.ids ∧
      (r.with_vs_token p).show_extra_info = r.show_extra_info ∧
      (r.with_extra_info b).show_extra_info = some b ∧
      (r.with_extra_info b).ids = r.ids ∧
      (r.with_extra_info b).vs_token = r.vs_token ∧
      (PriceRequest.new_single mint).ids = mint.toString ∧
      (PriceRequest.new_single mint).vs_token = none ∧
      (PriceRequest.new_single mint).show_extra_info = none ∧
      (PriceRequest.new_multiple mints).ids =
        String.intercalate "," (mints.map Pubkey.toString) ∧
      (PriceRequest.new_multiple mints).vs_token = none ∧
      (PriceRequest.new_multiple mints).show_extra_info = none ∧
      (r1.with_vs_token tok).vs_token = some tok ∧
      (r1.with_vs_token tok).ids = r1.ids ∧
      (r1.with_vs_token_pubkey p).vs_token = some p.toString ∧
      (r1.with_vs_token_pubkey p).ids = r1.ids ∧
      (PriceV1Request.new_single tok).vs_token = none ∧
      (PriceV1Request.new_single_pubkey mint).vs_token = none ∧
      (PriceV1Request.new_multiple toks).vs_token = none ∧
      (PriceV1Request.new_multiple_pubkeys mints).vs_token = none :=
  ⟨rfl, rfl, rfl, rfl, rfl, rfl, rfl, rfl, rfl, rfl, rfl, rfl, rfl, rfl, rfl,
    rfl, rfl, rfl, rfl, rfl⟩

/-- C9: quote attaches the structured fields and the extra-argument bag as a
two-phase appended query-pair list: no pair of either source is dropped or
overwritten, the bag's pairs come after the structured fields, and under
last-binding-wins resolution a key present in the bag resolves to the bag's
value. -/
theorem quote_query_two_phase_merge (structured extraArgs : List (String × String)) :
    quoteQueryPairs structured extraArgs = structured ++ extraArgs ∧
      (∀ p ∈ structured, p ∈ quoteQueryPairs structured extraArgs) ∧
      (∀ p ∈ extraArgs, p ∈ quoteQueryPairs structured extraArgs) ∧
      (∀ k v, (k, v) ∈ extraArgs →
        lastValue (quoteQueryPairs structured extraArgs) k = lastValue extraArgs k) := by
  refine ⟨rfl, ?_, ?_, ?_⟩
  · intro p hp
    show p ∈ structured ++ extraArgs
    exact List.mem_append_left _ hp
  · intro p hp
    show p ∈ structured ++ extraArgs
    exact List.mem_append_right _ hp
  · intro k v hkv
    show lastValue (structured ++ extraArgs) k = lastValue extraArgs k
    have hne : extraArgs.filter (fun p => p.1 == k) ≠ [] := by
      intro hnil
      have hmem : (k, v) ∈ extraArgs.filter (fun p => p.1 == k) :=
        List.mem_filter.mpr ⟨hkv, by simp⟩
      rw [hnil] at hmem
      exact List.not_mem_nil _ hmem
    unfold lastValue
    rw [List.filter_append, List.getLast?_append_of_ne_nil _ hne]

/-- Witness for C9: a colliding "amount" key resolves to the extra bag's
value because the bag is applied after the structured fields. -/
theorem quote_query_two_phase_merge_witness :
    quoteQueryPairs [("amount", "5"), ("slippageBps", "50")] [("amount", "7")] =
        [("amount", "5"), ("slippageBps", "50"), ("amount", "7")] ∧
      lastValue (quoteQueryPairs [("amount", "5"), ("slippageBps", "50")] [("amount", "7")])
          "amount" = lastValue [("amount", "7")] "amount" ∧
      lastValue [("amount", "7")] "amount" = some "7" :=
  have h := quote_query_two_phase_merge [("amount", "5"), ("slippageBps", "50")]
    [("amount", "7")]
  ⟨h.1, h.2.2.2 "amount" "7" (by decide), by decide⟩

end JupiterClient
